import Mathlib

/-!
Verification development for the dolt commit builder (package dprocedures)
and the status command divergence calculator (go/cmd/dolt/commands/status.go).
External collaborators (session, commit graph provider, transactional writer)
are modelled as environment records holding the outcome of each call site, and
calls into the commit graph or the transactional writer are recorded in an
explicit trace so that claims about which operations run can be stated.
-/

namespace DoltSpec

/-- Commit hashes handled by the divergence calculator, abstracted as
natural numbers. -/
abbrev Hash := Nat

/-- Translation of countCommitsInRange from status.go. The external
topological iterator (commitwalk.GetTopologicalOrderIterator, outside this
excerpt) is represented by the finite sequence of hashes it yields. The loop
returns an error when the iterator is exhausted (io.EOF) before yielding the
target hash, breaks without counting when the target is reached, and otherwise
increments the count by one per visited commit. -/
def countCommitsInRange (seq : List Hash) (targetCommitHash : Hash) : Except String Nat :=
  match seq with
  | [] => .error "no match found to ancestor commit"
  | h :: rest =>
    if h = targetCommitHash then .ok 0
    else (countCommitsInRange rest targetCommitHash).map (· + 1)

/-- Calls made into the external commit graph provider by
printRemoteRefTrackingInfo: the common ancestor lookup and a topological
walk started from a given hash. -/
inductive GraphCall
  | getCommitAncestor (a b : Hash)
  | topologicalWalk (start : Hash)
  deriving DecidableEq

/-- Environment of printRemoteRefTrackingInfo at the point where both branch
tips have been resolved to hashes (status.go lines 212 onward): the local head
hash, the remote tracking head hash, the remote branch name, the outcome of
doltdb.GetCommitAncestor followed by HashOf, and for each start hash the
sequence the topological iterator would yield.

Modelled from the spec: GetCommitAncestor and GetTopologicalOrderIterator live
outside this excerpt; the spec describes the iterator as a lazy finite sequence
of reachable commits ordered by topological and temporal precedence, so the
environment carries that sequence directly. -/
structure DivergenceEnv where
  headHash : Hash
  remoteHash : Hash
  remoteBranchName : String
  ancestorResult : Except String Hash
  topoSeq : Hash → List Hash

/-- Translation of status.go lines 212 to 233: the common ancestor is computed
first, unconditionally; then, only when the two head hashes differ, behind and
ahead are counted by two topological walks (behind from the remote head, ahead
from the local head); both counts stay zero when the hashes are equal. The
second component records the graph calls performed. -/
def computeAheadBehind (env : DivergenceEnv) : Except String (Nat × Nat) × List GraphCall :=
  let ancCall := GraphCall.getCommitAncestor env.headHash env.remoteHash
  match env.ancestorResult with
  | .error e => (.error e, [ancCall])
  | .ok ancHash =>
    if env.headHash ≠ env.remoteHash then
      match countCommitsInRange (env.topoSeq env.remoteHash) ancHash with
      | .error e => (.error e, [ancCall, .topologicalWalk env.remoteHash])
      | .ok behind =>
        match countCommitsInRange (env.topoSeq env.headHash) ancHash with
        | .error e =>
          (.error e, [ancCall, .topologicalWalk env.remoteHash, .topologicalWalk env.headHash])
        | .ok ahead =>
          (.ok (ahead, behind),
           [ancCall, .topologicalWalk env.remoteHash, .topologicalWalk env.headHash])
    else
      (.ok (0, 0), [ancCall])

/-- Translation of getRemoteTrackingMsg from status.go: four message forms
selected by the signs of ahead and behind, with a plural s on the word commit
exactly when the relevant count exceeds one. -/
def getRemoteTrackingMsg (remoteBranchName : String) (ahead behind : Nat) : String :=
  if ahead > 0 ∧ behind > 0 then
    "Your branch and \x27" ++ remoteBranchName ++ "\x27 have diverged,\nand have "
      ++ toString ahead ++ " and " ++ toString behind
      ++ " different commits each, respectively.\n  (use \"dolt pull\" to update your local branch)"
  else if ahead > 0 then
    let s := if ahead > 1 then "s" else ""
    "Your branch is ahead of \x27" ++ remoteBranchName ++ "\x27 by "
      ++ toString ahead ++ " commit" ++ s
      ++ ".\n  (use \"dolt push\" to publish your local commits)"
  else if behind > 0 then
    let s := if behind > 1 then "s" else ""
    "Your branch is behind \x27" ++ remoteBranchName ++ "\x27 by "
      ++ toString behind ++ " commit" ++ s
      ++ ", and can be fast-forwarded.\n  (use \"dolt pull\" to update your local branch)"
  else
    "Your branch is up to date with \x27" ++ remoteBranchName ++ "\x27."

/-- Tail of printRemoteRefTrackingInfo: compute divergence, then print the
tracking message produced by getRemoteTrackingMsg; an error from the
computation is returned instead. -/
def printRemoteRefTrackingInfo (env : DivergenceEnv) : Except String String × List GraphCall :=
  match computeAheadBehind env with
  | (.error e, calls) => (.error e, calls)
  | (.ok (ahead, behind), calls) =>
    (.ok (getRemoteTrackingMsg env.remoteBranchName ahead behind), calls)

/-- Number of commits a topological walk visits strictly before reaching the
ancestor hash, stated from the spec wording: the length of the longest prefix
of the walk sequence that avoids the ancestor. -/
def visitedBeforeAncestor (seq : List Hash) (anc : Hash) : Nat :=
  (seq.takeWhile (fun h => h != anc)).length

theorem countCommitsInRange_eq_visitedBefore (seq : List Hash) (anc : Hash)
    (hmem : anc ∈ seq) :
    countCommitsInRange seq anc = .ok (visitedBeforeAncestor seq anc) := by
  induction seq with
  | nil => cases hmem
  | cons h rest ih =>
    by_cases hh : h = anc
    · subst hh
      simp [countCommitsInRange, visitedBeforeAncestor]
    · have hmem' : anc ∈ rest := by
        cases hmem with
        | head => exact absurd rfl hh
        | tail _ hm => exact hm
      simp [countCommitsInRange, visitedBeforeAncestor, hh, ih hmem', Except.map,
        Nat.add_comm]

/-- Linear chain C1, C2, C3 used by scenario A of the spec: commit 3 has
parent 2, commit 2 has parent 1, and the topological iterator started at a
commit yields that commit followed by its ancestors in order. -/
def chainTopoSeq : Hash → List Hash := fun h =>
  match h with
  | 3 => [3, 2, 1]
  | 2 => [2, 1]
  | 1 => [1]
  | _ => []

/-- Scenario A environment: local head is commit 3 whose parent, commit 2, is
the upstream head; their common ancestor is commit 2. -/
def scenarioAEnv : DivergenceEnv :=
  { headHash := 3
    remoteHash := 2
    remoteBranchName := "origin/main"
    ancestorResult := .ok 2
    topoSeq := chainTopoSeq }

/-- Environment with equal local and upstream heads whose ancestor lookup
fails, exhibiting that the ancestor computation still runs. -/
def equalHeadsFailingAncEnv : DivergenceEnv :=
  { headHash := 0
    remoteHash := 0
    remoteBranchName := "origin/main"
    ancestorResult := .error "ancestor lookup failed"
    topoSeq := fun _ => [] }

/-- Environment with equal local and upstream heads and a successful ancestor
lookup. -/
def equalHeadsOkAncEnv : DivergenceEnv :=
  { headHash := 0
    remoteHash := 0
    remoteBranchName := "origin/main"
    ancestorResult := .ok 0
    topoSeq := fun _ => [] }

/-- C2 as stated is false: even with equal head hashes the code computes the
common ancestor before the equality check, so the call trace is not empty, and
when that ancestor lookup fails the result is an error rather than (0, 0). -/
theorem equalHeads_counterexample :
    equalHeadsFailingAncEnv.headHash = equalHeadsFailingAncEnv.remoteHash ∧
    ¬ ((computeAheadBehind equalHeadsFailingAncEnv).1 = .ok (0, 0) ∧
       (computeAheadBehind equalHeadsFailingAncEnv).2 = []) := by
  refine ⟨rfl, ?_⟩
  intro hclaim
  have h1 := hclaim.1
  simp [computeAheadBehind, equalHeadsFailingAncEnv] at h1

/-- C2 amended: when the local head hash equals the upstream head hash and the
ancestor computation (which the code performs unconditionally, before the
equality check) succeeds, the divergence computation returns ahead zero and
behind zero with no error, and the only graph call performed is the ancestor
lookup; in particular no topological walk runs. -/
theorem equalHeads_no_walk (env : DivergenceEnv) (c : Hash)
    (heq : env.headHash = env.remoteHash)
    (hanc : env.ancestorResult = .ok c) :
    (computeAheadBehind env).1 = .ok (0, 0) ∧
    (computeAheadBehind env).2 =
      [GraphCall.getCommitAncestor env.headHash env.remoteHash] := by
  simp [computeAheadBehind, hanc, heq]

/-- Witness for equalHeads_no_walk at a concrete environment. -/
theorem equalHeads_no_walk_witness :
    (computeAheadBehind equalHeadsOkAncEnv).1 = .ok (0, 0) ∧
    (computeAheadBehind equalHeadsOkAncEnv).2 =
      [GraphCall.getCommitAncestor equalHeadsOkAncEnv.headHash equalHeadsOkAncEnv.remoteHash] :=
  equalHeads_no_walk equalHeadsOkAncEnv 0 rfl rfl

/-- C3: for distinct heads whose common ancestor occurs in both topological
walk sequences, behind is the number of commits the walk from the upstream
head visits before reaching the ancestor (the ancestor itself excluded) and
ahead is the same count walked from the local head; in particular, in scenario
A (local head commit 3 whose parent commit 2 is the upstream head) the result
is ahead one and behind zero. -/
theorem aheadBehind_counts (env : DivergenceEnv) (c : Hash)
    (hne : env.headHash ≠ env.remoteHash)
    (hanc : env.ancestorResult = .ok c)
    (hr : c ∈ env.topoSeq env.remoteHash)
    (hh : c ∈ env.topoSeq env.headHash) :
    (computeAheadBehind env).1 =
      .ok (visitedBeforeAncestor (env.topoSeq env.headHash) c,
           visitedBeforeAncestor (env.topoSeq env.remoteHash) c) ∧
    (computeAheadBehind scenarioAEnv).1 = .ok (1, 0) := by
  constructor
  · simp [computeAheadBehind, hanc, hne,
      countCommitsInRange_eq_visitedBefore _ _ hr,
      countCommitsInRange_eq_visitedBefore _ _ hh]
  · rfl

/-- Witness for aheadBehind_counts at the scenario A environment. -/
theorem aheadBehind_counts_witness :
    (computeAheadBehind scenarioAEnv).1 =
      .ok (visitedBeforeAncestor (scenarioAEnv.topoSeq scenarioAEnv.headHash) 2,
           visitedBeforeAncestor (scenarioAEnv.topoSeq scenarioAEnv.remoteHash) 2) ∧
    (computeAheadBehind scenarioAEnv).1 = .ok (1, 0) :=
  aheadBehind_counts scenarioAEnv 2 (by decide) rfl (by decide) (by decide)

/-- C4: when the target ancestor hash never occurs in the sequence the
topological iterator yields, countCommitsInRange returns the no-match error
and never a successful count. -/
theorem exhaustedWalk_errors (seq : List Hash) (target : Hash)
    (hmem : target ∉ seq) :
    countCommitsInRange seq target = .error "no match found to ancestor commit" := by
  induction seq with
  | nil => simp [countCommitsInRange]
  | cons h rest ih =>
    have hh : h ≠ target := fun hcontra => hmem (hcontra ▸ List.mem_cons_self h rest)
    have hmem' : target ∉ rest := fun hm => hmem (List.mem_cons_of_mem h hm)
    simp [countCommitsInRange, hh, ih hmem', Except.map]

/-- Witness for exhaustedWalk_errors on a concrete sequence. -/
theorem exhaustedWalk_errors_witness :
    countCommitsInRange [1, 2] 5 = .error "no match found to ancestor commit" :=
  exhaustedWalk_errors [1, 2] 5 (by decide)

/-- Diverged message form, stated from the spec description of the
status-report consumer. -/
def divergedMsg (name : String) (ahead behind : Nat) : String :=
  "Your branch and \x27" ++ name ++ "\x27 have diverged,\nand have "
    ++ toString ahead ++ " and " ++ toString behind
    ++ " different commits each, respectively.\n  (use \"dolt pull\" to update your local branch)"

/-- Plural suffix on the word commit, used when the count exceeds one. -/
def pluralS (n : Nat) : String := if n > 1 then "s" else ""

/-- Ahead-only message form with the pluralized commit word. -/
def aheadOnlyMsg (name : String) (ahead : Nat) : String :=
  "Your branch is ahead of \x27" ++ name ++ "\x27 by " ++ toString ahead
    ++ " commit" ++ pluralS ahead
    ++ ".\n  (use \"dolt push\" to publish your local commits)"

/-- Behind-only message form with the pluralized commit word. -/
def behindOnlyMsg (name : String) (behind : Nat) : String :=
  "Your branch is behind \x27" ++ name ++ "\x27 by " ++ toString behind
    ++ " commit" ++ pluralS behind
    ++ ", and can be fast-forwarded.\n  (use \"dolt pull\" to update your local branch)"

/-- Up-to-date message form. -/
def upToDateMsg (name : String) : String :=
  "Your branch is up to date with \x27" ++ name ++ "\x27."

/-- C8: for every pair of counts and every remote branch name the tracking
message is exactly one of the four forms, selected by the mutually exclusive
sign conditions on ahead and behind, with the commit word pluralized by the
count in the single-count forms; the final disjunction records that the four
conditions are exhaustive. -/
theorem remoteTrackingMsg_forms (name : String) (ahead behind : Nat) :
    (0 < ahead ∧ 0 < behind →
      getRemoteTrackingMsg name ahead behind = divergedMsg name ahead behind) ∧
    (0 < ahead ∧ behind = 0 →
      getRemoteTrackingMsg name ahead behind = aheadOnlyMsg name ahead) ∧
    (ahead = 0 ∧ 0 < behind →
      getRemoteTrackingMsg name ahead behind = behindOnlyMsg name behind) ∧
    (ahead = 0 ∧ behind = 0 →
      getRemoteTrackingMsg name ahead behind = upToDateMsg name) ∧
    ((0 < ahead ∧ 0 < behind) ∨ (0 < ahead ∧ behind = 0) ∨
     (ahead = 0 ∧ 0 < behind) ∨ (ahead = 0 ∧ behind = 0)) := by
  refine ⟨?_, ?_, ?_, ?_, ?_⟩
  · rintro ⟨ha, hb⟩
    simp [getRemoteTrackingMsg, divergedMsg, ha, hb]
  · rintro ⟨ha, hb⟩
    subst hb
    simp [getRemoteTrackingMsg, aheadOnlyMsg, pluralS, ha]
  · rintro ⟨ha, hb⟩
    subst ha
    simp [getRemoteTrackingMsg, behindOnlyMsg, pluralS, hb]
  · rintro ⟨ha, hb⟩
    subst ha; subst hb
    simp [getRemoteTrackingMsg, upToDateMsg]
  · omega

/-- Witness for remoteTrackingMsg_forms at concrete counts. -/
theorem remoteTrackingMsg_forms_witness :
    getRemoteTrackingMsg "origin/main" 2 0 = aheadOnlyMsg "origin/main" 2 :=
  (remoteTrackingMsg_forms "origin/main" 2 0).2.1 ⟨by decide, rfl⟩

/-- Working roots bundle, abstracted as a natural number. -/
abbrev Roots := Nat

/-- Commit value produced by the graph provider, abstracted as a natural
number. -/
abbrev Commit := Nat

/-- Pending commit handle produced by NewPendingCommit, abstracted as a
natural number. -/
abbrev PendingCommit := Nat

/-- Commit metadata; only the description field is read by this excerpt. -/
structure CommitMeta where
  description : String
  deriving DecidableEq

/-- CommitStagedProps as passed to NewPendingCommit in doDoltCommit. -/
structure CommitStagedProps where
  message : String
  date : Int
  allowEmpty : Bool
  skipEmpty : Bool
  amend : Bool
  force : Bool
  name : String
  email : String
  deriving DecidableEq

/-- Parsed argument result of CreateCommitArgParser: the flags and optional
values doDoltCommit reads from it. -/
structure Apr where
  upperCaseAll : Bool
  allFlag : Bool
  author : Option String
  amendFlag : Bool
  message : Option String
  dateParam : Option String
  allowEmpty : Bool
  skipEmpty : Bool
  force : Bool
  deriving DecidableEq

/-- Environment of one doDoltCommit invocation: the outcome of each external
call site, in the order the code makes them. Each Except or Option field holds
what the collaborator would return for this invocation. -/
structure CommitEnv where
  checkAccess : Except String Unit
  dbName : String
  parseArgs : Except String Apr
  verifyArgs : Except String Unit
  getRoots : Option Roots
  stageAllTables : Except String Roots
  stageModifiedAndDeleted : Except String Roots
  parseAuthor : Except String (String × String)
  clientUser : String
  clientAddress : String
  getHeadCommit : Except String Commit
  getCommitMeta : Except String CommitMeta
  queryTime : Int
  parseDate : Except String Int
  newPendingCommit : Except String (Option PendingCommit)
  doltCommitWrite : Except String Commit
  hashOf : Except String String

/-- Staging step of doDoltCommit: the ALL flag in upper case stages every
table, the lower case flag stages only modified and deleted tables, and
otherwise the roots pass through unchanged. -/
def stageRoots (env : CommitEnv) (apr : Apr) (roots : Roots) : Except String Roots :=
  if apr.upperCaseAll then env.stageAllTables
  else if apr.allFlag then env.stageModifiedAndDeleted
  else .ok roots

/-- Author resolution step of doDoltCommit: an explicit author string is
parsed by cli.ParseAuthor and its failure propagates; with no author argument
the session client user becomes the name and user at client address becomes
the email. -/
def resolveAuthor (env : CommitEnv) (apr : Apr) : Except String (String × String) :=
  match apr.author with
  | some _ => env.parseAuthor
  | none => .ok (env.clientUser, env.clientUser ++ "@" ++ env.clientAddress)

/-- Message resolution step of doDoltCommit: an explicit message is used as
given; otherwise, under amend, the description of the head commit metadata is
reused; otherwise the invocation fails. -/
def resolveMessage (env : CommitEnv) (apr : Apr) : Except String String :=
  match apr.message with
  | some msg => .ok msg
  | none =>
    if apr.amendFlag then
      match env.getHeadCommit with
      | .error e => .error e
      | .ok _ =>
        match env.getCommitMeta with
        | .error e => .error e
        | .ok commitMeta => .ok commitMeta.description
    else .error "Must provide commit message."

/-- Date resolution step of doDoltCommit: an explicit date string is parsed
by cli.ParseDate and its failure propagates; otherwise the query time of the
invoking context is used. -/
def resolveDate (env : CommitEnv) (apr : Apr) : Except String Int :=
  match apr.dateParam with
  | some _ => env.parseDate
  | none => .ok env.queryTime

/-- Calls into the transactional writer recorded by the doDoltCommit model:
the pending commit computation with the props it receives, and the durable
commit write. -/
inductive CommitCall
  | newPendingCommitCall (props : CommitStagedProps)
  | writeCommitCall
  deriving DecidableEq

/-- Translation of doDoltCommit with an explicit trace of writer calls. The
result triple mirrors the Go return values: commit hash string, skipped flag,
and optional error. Every failure path returns the empty hash with skipped
false; a nil pending commit under the skip-empty flag yields the skipped
success, otherwise the nothing-to-commit error; on success the hash of the
written commit is returned with skipped false and no error. -/
def doDoltCommitT (env : CommitEnv) : (String × Bool × Option String) × List CommitCall :=
  match env.checkAccess with
  | .error e => (("", false, some e), [])
  | .ok _ =>
  match env.parseArgs with
  | .error e => (("", false, some e), [])
  | .ok apr =>
  match env.verifyArgs with
  | .error e => (("", false, some e), [])
  | .ok _ =>
  match env.getRoots with
  | none => (("", false, some ("Could not load database " ++ env.dbName)), [])
  | some roots0 =>
  match stageRoots env apr roots0 with
  | .error e => (("", false, some e), [])
  | .ok _roots =>
  match resolveAuthor env apr with
  | .error e => (("", false, some e), [])
  | .ok (name, email) =>
  match resolveMessage env apr with
  | .error e => (("", false, some e), [])
  | .ok msg =>
  match resolveDate env apr with
  | .error e => (("", false, some e), [])
  | .ok t =>
  let props : CommitStagedProps :=
    { message := msg
      date := t
      allowEmpty := apr.allowEmpty
      skipEmpty := apr.skipEmpty
      amend := apr.amendFlag
      force := apr.force
      name := name
      email := email }
  match env.newPendingCommit with
  | .error e => (("", false, some e), [CommitCall.newPendingCommitCall props])
  | .ok none =>
    if apr.skipEmpty then (("", true, none), [CommitCall.newPendingCommitCall props])
    else (("", false, some "nothing to commit"), [CommitCall.newPendingCommitCall props])
  | .ok (some _) =>
    match env.doltCommitWrite with
    | .error e =>
      (("", false, some e), [CommitCall.newPendingCommitCall props, CommitCall.writeCommitCall])
    | .ok _ =>
      match env.hashOf with
      | .error e =>
        (("", false, some e), [CommitCall.newPendingCommitCall props, CommitCall.writeCommitCall])
      | .ok h =>
        ((h, false, none), [CommitCall.newPendingCommitCall props, CommitCall.writeCommitCall])

/-- Result triple of doDoltCommit, as returned to both invocation surfaces. -/
def doDoltCommit (env : CommitEnv) : String × Bool × Option String :=
  (doDoltCommitT env).1

/-- Single output row holding the commit hash, mirroring rowToIter. -/
def rowToIter (commitHash : String) : List (List String) :=
  [[commitHash]]

/-- Stored procedure surface doltCommit: an error yields no rows and the
error; a skipped commit yields no rows and no error; otherwise one row with
the commit hash. -/
def doltCommit (env : CommitEnv) : Option (List (List String)) × Option String :=
  let r := doDoltCommit env
  match r.2.2 with
  | some e => (none, some e)
  | none =>
    if r.2.1 then (none, none)
    else (some (rowToIter r.1), none)

/-- Stored procedure surface doltCommitHashOut: same as doltCommit but the
final component is the value of the out parameter after the call, written
with the hash only on a successful non-skipped commit. -/
def doltCommitHashOut (env : CommitEnv) (outHash : String) :
    (Option (List (List String)) × Option String) × String :=
  let r := doDoltCommit env
  match r.2.2 with
  | some e => ((none, some e), outHash)
  | none =>
    if r.2.1 then ((none, none), outHash)
    else ((some (rowToIter r.1), none), r.1)

/-- Argument record where every flag is off and an explicit message is
given. -/
def baseApr : Apr :=
  { upperCaseAll := false
    allFlag := false
    author := none
    amendFlag := false
    message := some "commit message"
    dateParam := none
    allowEmpty := false
    skipEmpty := false
    force := false }

/-- Environment in which every external call succeeds and a pending commit is
produced and written. -/
def baseEnv : CommitEnv :=
  { checkAccess := .ok ()
    dbName := "mydb"
    parseArgs := .ok baseApr
    verifyArgs := .ok ()
    getRoots := some 0
    stageAllTables := .ok 1
    stageModifiedAndDeleted := .ok 2
    parseAuthor := .ok ("alice", "alice@host")
    clientUser := "root"
    clientAddress := "localhost"
    getHeadCommit := .ok 7
    getCommitMeta := .ok ⟨"previous message"⟩
    queryTime := 0
    parseDate := .ok 5
    newPendingCommit := .ok (some 11)
    doltCommitWrite := .ok 12
    hashOf := .ok "0123456789abcdef0123456789abcdef" }

/-- Arguments with the skip-empty flag set. -/
def skipApr : Apr := { baseApr with skipEmpty := true }

/-- Environment with the skip-empty flag set and an empty pending commit. -/
def skipEnv : CommitEnv := { baseEnv with parseArgs := .ok skipApr, newPendingCommit := .ok none }

/-- Arguments with no explicit message and the amend flag set. -/
def amendApr : Apr := { baseApr with message := none, amendFlag := true }

/-- Environment invoking an amend with no explicit message. -/
def amendEnv : CommitEnv := { baseEnv with parseArgs := .ok amendApr }

/-- Arguments carrying an explicit author string. -/
def authorApr : Apr := { baseApr with author := some "garbage" }

/-- Environment whose explicit author string fails to parse. -/
def badAuthorEnv : CommitEnv :=
  { baseEnv with parseArgs := .ok authorApr, parseAuthor := .error "invalid author" }

/-- C1: when the pending commit computation reports nothing to commit, the
skip-empty flag selects the skipped success triple with an empty hash and no
error, and otherwise the nothing-to-commit error triple is returned; since the
skipped outcome carries no error and the created outcome carries a hash with
skipped false, the created, skipped and failed outcomes are pairwise
distinguishable. -/
theorem skipEmpty_vs_nothingToCommit (env : CommitEnv) (apr : Apr) (roots0 : Roots)
    (haccess : env.checkAccess = .ok ())
    (hparse : env.parseArgs = .ok apr)
    (hverify : env.verifyArgs = .ok ())
    (hroots : env.getRoots = some roots0)
    (hstage : ∃ r, stageRoots env apr roots0 = .ok r)
    (hauthor : ∃ ne, resolveAuthor env apr = .ok ne)
    (hmsg : ∃ m, resolveMessage env apr = .ok m)
    (hdate : ∃ t, resolveDate env apr = .ok t)
    (hpending : env.newPendingCommit = .ok none) :
    (apr.skipEmpty = true → doDoltCommit env = ("", true, none)) ∧
    (apr.skipEmpty = false → doDoltCommit env = ("", false, some "nothing to commit")) := by
  obtain ⟨r, hstage⟩ := hstage
  obtain ⟨⟨aname, aemail⟩, hauthor⟩ := hauthor
  obtain ⟨m, hmsg⟩ := hmsg
  obtain ⟨t, hdate⟩ := hdate
  constructor <;> intro hsk <;>
    simp [doDoltCommit, doDoltCommitT, haccess, hparse, hverify, hroots, hstage,
      hauthor, hmsg, hdate, hpending, hsk]

/-- Witness for skipEmpty_vs_nothingToCommit at the skip-empty environment. -/
theorem skipEmpty_vs_nothingToCommit_witness :
    doDoltCommit skipEnv = ("", true, none) :=
  (skipEmpty_vs_nothingToCommit skipEnv skipApr 0 rfl rfl rfl rfl
    ⟨0, rfl⟩ ⟨(skipEnv.clientUser, skipEnv.clientUser ++ "@" ++ skipEnv.clientAddress), rfl⟩
    ⟨"commit message", rfl⟩ ⟨0, rfl⟩ rfl).1 rfl

/-- C5: an explicit message is used as given whatever the amend flag says;
with no explicit message and amend set, the description of the head commit
metadata is reused verbatim; with no explicit message and amend unset the
invocation fails with the missing-commit-message error and, as the empty
writer trace shows, no commit is created. -/
theorem messageResolution (env : CommitEnv) (apr : Apr) :
    (∀ m, apr.message = some m → resolveMessage env apr = .ok m) ∧
    (∀ c meta, apr.message = none → apr.amendFlag = true →
      env.getHeadCommit = .ok c → env.getCommitMeta = .ok meta →
      resolveMessage env apr = .ok meta.description) ∧
    (apr.message = none → apr.amendFlag = false →
      resolveMessage env apr = .error "Must provide commit message.") ∧
    (∀ roots0, apr.message = none → apr.amendFlag = false →
      env.checkAccess = .ok () → env.parseArgs = .ok apr → env.verifyArgs = .ok () →
      env.getRoots = some roots0 → (∃ r, stageRoots env apr roots0 = .ok r) →
      (∃ ne, resolveAuthor env apr = .ok ne) →
      doDoltCommit env = ("", false, some "Must provide commit message.") ∧
      (doDoltCommitT env).2 = []) := by
  refine ⟨?_, ?_, ?_, ?_⟩
  · intro m hm
    simp [resolveMessage, hm]
  · intro c meta hm ha hhead hmeta
    simp [resolveMessage, hm, ha, hhead, hmeta]
  · intro hm ha
    simp [resolveMessage, hm, ha]
  · intro roots0 hm ha haccess hparse hverify hroots hstage hauthor
    obtain ⟨r, hstage⟩ := hstage
    obtain ⟨⟨aname, aemail⟩, hauthor⟩ := hauthor
    have hmsg : resolveMessage env apr = .error "Must provide commit message." := by
      simp [resolveMessage, hm, ha]
    constructor <;>
      simp [doDoltCommit, doDoltCommitT, haccess, hparse, hverify, hroots, hstage,
        hauthor, hmsg]

/-- Witness for messageResolution: the amend environment reuses the previous
head commit description. -/
theorem messageResolution_witness :
    resolveMessage amendEnv amendApr = .ok (CommitMeta.mk "previous message").description :=
  (messageResolution amendEnv amendApr).2.1 7 ⟨"previous message"⟩ rfl rfl rfl rfl

/-- C6: an explicit author string that parses as a name and email pair is
used; a malformed explicit author string propagates its parse error, and the
whole invocation fails with that error; with no author argument the session
client user becomes the name and user at client address becomes the email. -/
theorem authorResolution (env : CommitEnv) (apr : Apr) :
    (∀ s n e, apr.author = some s → env.parseAuthor = .ok (n, e) →
      resolveAuthor env apr = .ok (n, e)) ∧
    (∀ s msg, apr.author = some s → env.parseAuthor = .error msg →
      resolveAuthor env apr = .error msg) ∧
    (∀ s msg roots0, apr.author = some s → env.parseAuthor = .error msg →
      env.checkAccess = .ok () → env.parseArgs = .ok apr → env.verifyArgs = .ok () →
      env.getRoots = some roots0 → (∃ r, stageRoots env apr roots0 = .ok r) →
      doDoltCommit env = ("", false, some msg)) ∧
    (apr.author = none →
      resolveAuthor env apr = .ok (env.clientUser, env.clientUser ++ "@" ++ env.clientAddress)) := by
  refine ⟨?_, ?_, ?_, ?_⟩
  · intro s n e hs hp
    simp [resolveAuthor, hs, hp]
  · intro s msg hs hp
    simp [resolveAuthor, hs, hp]
  · intro s msg roots0 hs hp haccess hparse hverify hroots hstage
    obtain ⟨r, hstage⟩ := hstage
    have hauthor : resolveAuthor env apr = .error msg := by simp [resolveAuthor, hs, hp]
    simp [doDoltCommit, doDoltCommitT, haccess, hparse, hverify, hroots, hstage, hauthor]
  · intro hs
    simp [resolveAuthor, hs]

/-- Witness for authorResolution: the malformed author environment fails with
the parse error. -/
theorem authorResolution_witness :
    doDoltCommit badAuthorEnv = ("", false, some "invalid author") :=
  (authorResolution badAuthorEnv authorApr).2.2.1 "garbage" "invalid author" 0
    rfl rfl rfl rfl rfl rfl ⟨0, rfl⟩

/-- C7: on a successful non-skipped commit both surfaces produce the single
row holding the commit hash and the out-parameter surface additionally writes
the hash into the output binding; on a skipped commit neither surface produces
a row and the output binding keeps its prior value. -/
theorem surfaceRows (env : CommitEnv) (outHash h : String) :
    (doDoltCommit env = (h, false, none) →
      doltCommit env = (some [[h]], none) ∧
      doltCommitHashOut env outHash = ((some [[h]], none), h)) ∧
    (doDoltCommit env = ("", true, none) →
      doltCommit env = (none, none) ∧
      doltCommitHashOut env outHash = ((none, none), outHash)) := by
  constructor <;> intro hres <;>
    simp [doltCommit, doltCommitHashOut, rowToIter, hres]

/-- Witness for surfaceRows at the all-success environment. -/
theorem surfaceRows_witness :
    doltCommit baseEnv = (some [["0123456789abcdef0123456789abcdef"]], none) ∧
    doltCommitHashOut baseEnv "prior" =
      ((some [["0123456789abcdef0123456789abcdef"]], none),
       "0123456789abcdef0123456789abcdef") :=
  (surfaceRows baseEnv "prior" "0123456789abcdef0123456789abcdef").1 rfl

/-- C10: every return path of doDoltCommit lands in one of three shapes: a
created result carrying a hash with skipped false and no error, the skipped
result with an empty hash and no error, or a failed result with an empty hash
and skipped false; hence skipped true forces an empty hash and a nil error, a
nonempty hash forces skipped false and a nil error, and an error forces an
empty hash and skipped false. -/
theorem commitResult_invariant (env : CommitEnv) :
    (∃ h, doDoltCommit env = (h, false, none)) ∨
    doDoltCommit env = ("", true, none) ∨
    (∃ e, doDoltCommit env = ("", false, some e)) := by
  unfold doDoltCommit doDoltCommitT
  repeat' split
  all_goals simp

/-- Environment of one StatusCmd Exec run: the outcome of each call the
command makes, in order. -/
structure StatusExecEnv where
  queryEngine : Except String Unit
  roots : Except String Roots
  stagedUnstaged : Except String (List Nat × List Nat)
  workingSet : Except String Nat
  mergeArtifactStatus : Except String Nat
  printStatus : Except String Unit

/-- Translation of StatusCmd Exec from status.go: the query engine, roots and
staged-delta failures each report the error and return exit code 1; the
WorkingSet and merge-artifact-status calls report their errors without
returning, so execution falls through to PrintStatus; a PrintStatus failure
reports and returns 1, and otherwise the exit code is 0. The result is the
exit code, the reported errors in order, and whether PrintStatus ran. -/
def Exec (env : StatusExecEnv) : Nat × List String × Bool :=
  match env.queryEngine with
  | .error e => (1, [e], false)
  | .ok _ =>
  match env.roots with
  | .error e => (1, [e], false)
  | .ok _ =>
  match env.stagedUnstaged with
  | .error e => (1, [e], false)
  | .ok _ =>
  let wsReported : List String :=
    match env.workingSet with
    | .error e => [e]
    | .ok _ => []
  let asReported : List String :=
    match env.mergeArtifactStatus with
    | .error e => [e]
    | .ok _ => []
  match env.printStatus with
  | .error e => (1, wsReported ++ asReported ++ [e], true)
  | .ok _ => (0, wsReported ++ asReported, true)

/-- Environment in which the WorkingSet retrieval fails while everything else
succeeds. -/
def wsErrEnv : StatusExecEnv :=
  { queryEngine := .ok ()
    roots := .ok 0
    stagedUnstaged := .ok ([], [])
    workingSet := .error "ws failed"
    mergeArtifactStatus := .ok 0
    printStatus := .ok () }

/-- C9: once the query engine, roots and staged-delta steps succeed, an error
from the WorkingSet retrieval or from the merge-artifact-status computation is
reported but does not abort Exec: PrintStatus still runs and, when it
succeeds, the exit code is 0. -/
theorem statusExec_tolerates_ws_errors (env : StatusExecEnv)
    (hq : env.queryEngine = .ok ())
    (hr : ∃ r, env.roots = .ok r)
    (hs : ∃ d, env.stagedUnstaged = .ok d) :
    (∀ e, env.workingSet = .error e →
      e ∈ (Exec env).2.1 ∧ (Exec env).2.2 = true ∧
      (env.printStatus = .ok () → (Exec env).1 = 0)) ∧
    (∀ e, env.mergeArtifactStatus = .error e →
      e ∈ (Exec env).2.1 ∧ (Exec env).2.2 = true ∧
      (env.printStatus = .ok () → (Exec env).1 = 0)) := by
  obtain ⟨r, hr⟩ := hr
  obtain ⟨d, hs⟩ := hs
  constructor <;> intro e he <;>
    rcases hps : env.printStatus with pe | pu <;>
      rcases has : env.mergeArtifactStatus with ae | au <;>
        rcases hws : env.workingSet with we | wu <;>
          simp_all [Exec, hq, hr, hs]

/-- Witness for statusExec_tolerates_ws_errors at the failing WorkingSet
environment. -/
theorem statusExec_tolerates_ws_errors_witness :
    "ws failed" ∈ (Exec wsErrEnv).2.1 ∧ (Exec wsErrEnv).1 = 0 := by
  have h := (statusExec_tolerates_ws_errors wsErrEnv rfl ⟨0, rfl⟩ ⟨([], []), rfl⟩).1
    "ws failed" rfl
  exact ⟨h.1, h.2.2 rfl⟩

end DoltSpec
